import Mathlib

/-!
Verification of the Boulder test DNS server (`test/dns-test-srv`, the Go
program whose entry points are `setTXT`, `dnsHandler`, `lookupStaticIP`,
`allHosts` and `readHosts`).  This file gives a shallow embedding of the
program's record store, control API handler, hosts-file resolver and DNS
query handler, and proves theorems about the specification's claims.

Modelling conventions:
* Go maps are modelled as functions into `Option`/`List` values.
* Go `string` is Lean `String` for protocol-level names and `List Char`
  inside the hosts-file parser, where the source manipulates byte slices
  line by line.
* `strings.ToLower` is modelled on the ASCII range (host names), using
  `Char.toLower`, which agrees with Go on ASCII.
* `net.ParseIP` is modelled on its IPv4 dotted-quad path; IPv6 textual
  forms are not modelled and parse to `none`.
* Filesystem effects (`os.Stat`, reading `/etc/hosts`) are passed in as
  explicit `Except` values; the global hosts cache is explicit state.
* The out-of-range slice index `ips[0]` in the A-question branch is a Go
  runtime panic; it is modelled by the `Panic` error of `Except`.
-/

namespace BoulderDns

/-- An IP address as produced by the IPv4 dotted-quad path of Go
`net.ParseIP`. -/
inductive IP where
  | v4 (a b c d : Nat)
deriving DecidableEq, Repr

/-- Infrastructure: split a character list at every occurrence of `sep`,
keeping empty segments.  `splitOnChar sep` never returns `[]`. -/
def splitOnChar (sep : Char) : List Char → List (List Char)
  | [] => [[]]
  | c :: cs =>
    if c = sep then [] :: splitOnChar sep cs
    else
      match splitOnChar sep cs with
      | [] => [[c]]
      | l :: ls => (c :: l) :: ls

/-- One decimal field of an IPv4 address, following Go's `dtoi` as used by
`parseIPv4`: at least one digit, digits only, and the resulting value must
fit in an octet.  (Go's `dtoi` accepts leading zeros and rejects overlong
values via its `big` cutoff; every value over 255 is rejected by
`parseIPv4` either way, so the composite behaviour is the same.) -/
def parseOctet (s : List Char) : Option Nat :=
  if s ≠ [] ∧ s.all Char.isDigit then
    let n := s.foldl (fun acc c => acc * 10 + (c.toNat - 48)) 0
    if n ≤ 255 then some n else none
  else none

/-- Go `parseIPv4`: four octet fields separated by single dots, consuming
the whole string. -/
def parseIPv4 (s : List Char) : Option IP :=
  match splitOnChar '.' s with
  | [a, b, c, d] =>
    match parseOctet a, parseOctet b, parseOctet c, parseOctet d with
    | some a', some b', some c', some d' => some (.v4 a' b' c' d')
    | _, _, _, _ => none
  | _ => none

/-- Go `net.ParseIP`: scan for the first `'.'` or `':'`; a dot selects the
IPv4 parser, a colon the (unmodelled) IPv6 parser, and a string with
neither is not an address. -/
def parseIPChars (s : List Char) : Option IP :=
  match s.find? (fun c => c = '.' || c = ':') with
  | some c => if c = '.' then parseIPv4 s else none
  | none => none

/-- `net.ParseIP` on a Lean `String`. -/
def parseIP (s : String) : Option IP :=
  parseIPChars s.data

/-- The ASCII whitespace accepted by Go `unicode.IsSpace` (used by
`strings.TrimSpace`). -/
def isGoSpace (c : Char) : Bool :=
  c = ' ' || c = '\t' || c = '\n' || c = '\x0b' || c = '\x0c' || c = '\r'

/-- The character class of the Go regular expression `\s`, which compiles
the `hostsFieldRE` pattern `\s+`. -/
def isRESpace (c : Char) : Bool :=
  c = ' ' || c = '\t' || c = '\n' || c = '\x0c' || c = '\r'

/-- Go `strings.TrimSpace` on a character list. -/
def trimSpace (l : List Char) : List Char :=
  ((l.dropWhile isGoSpace).reverse.dropWhile isGoSpace).reverse

/-- Go `regexp.Split` for a pattern of the form `p+` (maximal runs of
separator characters split the string; a leading or trailing run
contributes an empty field, interior runs do not). The boolean argument
records whether the previous character was a separator. -/
def splitRunsAux (p : Char → Bool) : List Char → Bool → List Char → List (List Char)
  | [], _, acc => [acc.reverse]
  | c :: cs, prevSep, acc =>
    if p c then
      if prevSep then splitRunsAux p cs true acc
      else acc.reverse :: splitRunsAux p cs true []
    else splitRunsAux p cs false (c :: acc)

/-- `hostsFieldRE.Split(l, -1)` where `hostsFieldRE = regexp.MustCompile("\s+")`. -/
def splitRuns (p : Char → Bool) (cs : List Char) : List (List Char) :=
  splitRunsAux p cs false []

/-- The hosts table `map[string][]net.IP`, modelled as a total function
with `[]` for absent keys (Go's zero value for a missing map key). -/
def HostsMap : Type := List Char → List IP

/-- The empty hosts table. -/
def hostsEmpty : HostsMap := fun _ => []

/-- `ret[name] = append(ret[name], addr)`. -/
def hostsAdd (m : HostsMap) (name : List Char) (addr : IP) : HostsMap :=
  fun k => if k = name then m k ++ [addr] else m k

/-- The body of the `readHosts` read loop for one line (the `l` obtained
from `ReadString`, with its terminating newline already removed; Go's
`TrimSpace` would discard that newline anyway): trim, skip blank lines and
comments, split into fields, skip lines whose first field is not an IP
address, and map every remaining field to that address. -/
def hostsLine (ret : HostsMap) (l : List Char) : HostsMap :=
  let t := trimSpace l
  if t = [] then ret
  else if t.head? = some '#' then ret
  else
    match splitRuns isRESpace t with
    | [] => ret  -- unreachable: regexp Split always returns at least one field
    | f0 :: rest =>
      match parseIPChars f0 with
      | none => ret
      | some addr => rest.foldl (fun m name => hostsAdd m name addr) ret

/-- The line structure produced by the `br.ReadString('\n')` loop of
`readHosts`: each segment terminated by a newline is one line, and a final
segment not terminated by a newline is returned together with `io.EOF`,
which the loop treats as termination, discarding that segment. -/
def goLinesAux : List Char → List Char → List (List Char)
  | [], _ => []
  | c :: cs, acc =>
    if c = '\n' then acc.reverse :: goLinesAux cs [] else goLinesAux cs (c :: acc)

/-- The lines `readHosts` iterates over. -/
def goLines (cs : List Char) : List (List Char) := goLinesAux cs []

/-- Go `readHosts`: parse a hosts file into a hosts table. -/
def readHosts (content : List Char) : HostsMap :=
  (goLines content).foldl hostsLine hostsEmpty

/-- Line-splitting as the specification words it ("line-oriented", "each
remaining line"): every newline-separated segment is a line, including a
final segment not terminated by a newline.  Used to compare `readHosts`
against the claimed parse. -/
def specLinesAux : List Char → List Char → List (List Char)
  | [], acc => [acc.reverse]
  | c :: cs, acc =>
    if c = '\n' then acc.reverse :: specLinesAux cs [] else specLinesAux cs (c :: acc)

/-- The hosts-file parse exactly as the specification describes it,
differing from `readHosts` only in processing every line of the content
(`specLinesAux` instead of `goLinesAux`). -/
def readHostsSpec (content : List Char) : HostsMap :=
  (specLinesAux content []).foldl hostsLine hostsEmpty

/-- Filesystem errors, distinguishing the `os.IsNotExist` case tested by
`lookupStaticIP` from every other error. -/
inductive FsErr where
  | notExist
  | other
deriving DecidableEq, Repr

/-- The process-wide mutable variables `hosts` and `hostsTime` of the Go
program (`hostsTime`'s zero value is the zero time, modelled as `0`;
modification times are `Nat`, ordered as `time.Time.Before`). -/
structure HostsCache where
  hosts : Option HostsMap
  hostsTime : Nat

/-- Go `allHosts`, with the `os.Stat` result and the `loadHosts` file read
passed in explicitly: on stat error fail; reload and replace both cache
fields when `hosts == nil || hostsTime.Before(st.ModTime())`, otherwise
reuse the cached table. -/
def allHosts (st : HostsCache) (statRes : Except FsErr Nat)
    (readRes : Except FsErr (List Char)) : Except FsErr (HostsCache × HostsMap) :=
  match statRes with
  | .error e => .error e
  | .ok mtime =>
    match st.hosts with
    | none =>
      match readRes with
      | .error e => .error e
      | .ok content =>
        .ok ({ hosts := some (readHosts content), hostsTime := mtime }, readHosts content)
    | some t =>
      if st.hostsTime < mtime then
        match readRes with
        | .error e => .error e
        | .ok content =>
          .ok ({ hosts := some (readHosts content), hostsTime := mtime }, readHosts content)
      else .ok (st, t)

/-- Go `lookupStaticIP`: resolve through `allHosts`; a not-exist error is
"no static entries" (`return nil, nil`, the cache untouched), any other
error propagates, and otherwise the map is indexed at `name` (missing keys
give the empty list). -/
def lookupStaticIP (name : List Char) (st : HostsCache) (statRes : Except FsErr Nat)
    (readRes : Except FsErr (List Char)) : Except FsErr (HostsCache × List IP) :=
  match allHosts st statRes readRes with
  | .error .notExist => .ok (st, [])
  | .error e => .error e
  | .ok (st', hm) => .ok (st', hm name)

/-- Go `strings.ToLower`, on the ASCII range. -/
def toLowerStr (s : String) : String :=
  ⟨s.data.map Char.toLower⟩

/-- The record store `ts.txtRecords : map[string]string`, modelled as a
function with `none` for absent keys. -/
def TxtStore : Type := String → Option String

/-- The record store at process start (`make(map[string]string)`). -/
def emptyStore : TxtStore := fun _ => none

/-- The store write of `setTXT`:
`ts.txtRecords[strings.ToLower(sr.Host)] = sr.Value`. -/
def publish (st : TxtStore) (host value : String) : TxtStore :=
  fun k => if k = toLowerStr host then some value else st k

/-- The JSON body `{"host": ..., "value": ...}` of a `/set-txt` request
(Go struct `setRequest`). -/
structure SetRequest where
  host : String
  value : String
deriving DecidableEq, Repr

/-- Go `(*testSrv).setTXT`, as a function from the request to the new
store and the HTTP status code written.  `body` is the result of
`ioutil.ReadAll(r.Body)` and `unmarshal` models `json.Unmarshal` into a
`setRequest`; both fail with a message, answered with 400.  The branch
order is the source's: path, then method, then body read, then unmarshal,
then the empty-host guard, then the store write and `200 OK`. -/
def setTXT (unmarshal : String → Except String SetRequest) (st : TxtStore)
    (method path : String) (body : Except String String) : TxtStore × Nat :=
  if path ≠ "/set-txt" then (st, 404)
  else if method ≠ "POST" then (st, 405)
  else
    match body with
    | .error _ => (st, 400)
    | .ok msg =>
      match unmarshal msg with
      | .error _ => (st, 400)
      | .ok sr =>
        if sr.host = "" then (st, 400)
        else (publish st sr.host sr.value, 200)

/-- DNS record-type and response-code constants of the miekg/dns package
used by the handler. -/
def TypeA : Nat := 1

/-- `dns.TypeSOA`. -/
def TypeSOA : Nat := 6

/-- `dns.TypeMX`. -/
def TypeMX : Nat := 15

/-- `dns.TypeTXT`. -/
def TypeTXT : Nat := 16

/-- `dns.TypeCAA`. -/
def TypeCAA : Nat := 257

/-- `dns.RcodeServerFailure`. -/
def RcodeServerFailure : Nat := 2

/-- One entry of the question section. -/
structure Question where
  name : String
  qtype : Nat
deriving DecidableEq, Repr

/-- The resource records the handler synthesizes.  The A record's address
is an `Option` because Go `net.ParseIP` can give a `nil` `net.IP`, which
the handler stores unexamined. -/
inductive RR where
  | a (name : String) (addr : Option IP)
  | mx (name : String) (preference : Nat) (exchange : String)
  | txt (name : String) (values : List String)
  | caa (name : String) (tag value : String)
  | soa (name ns mbox : String) (serial refresh retryIv expire minttl : Nat)
deriving DecidableEq, Repr

/-- The parts of a `dns.Msg` the handler reads or writes: question section,
answer section, authority section (`m.Ns`) and the response code. -/
structure Msg where
  question : List Question
  answer : List RR
  ns : List RR
  rcode : Nat
deriving DecidableEq, Repr

/-- A Go runtime panic reachable from the handler: the index expression
`ips[0]` on an empty slice. -/
inductive Panic where
  | indexOutOfRange
deriving DecidableEq, Repr

/-- Go `strings.TrimRight(s, ".")`. -/
def trimRightDots (s : String) : String :=
  ⟨((s.data.reverse).dropWhile (fun c => c = '.')).reverse⟩

/-- `m.SetReply(r)`: a fresh reply carrying the request's questions, no
answers, no authority records and a success response code. -/
def setReply (r : Msg) : Msg :=
  { question := r.question, answer := [], ns := [], rcode := 0 }

/-- The fixed authority record appended by `dnsHandler` after the question
loop. -/
def boulderSOA : RR :=
  .soa "boulder.invalid." "ns.boulder.invalid." "master.boulder.invalid." 1 1 1 1 1

/-- The default applied to `os.Getenv("FAKE_DNS")` at the top of
`dnsHandler` (`os.Getenv` yields the empty string when the variable is
unset). -/
def effectiveFakeDNS (fakeEnv : String) : String :=
  if fakeEnv = "" then "127.0.0.1" else fakeEnv

/-- The body of `dnsHandler`'s question loop for one question `q`,
transforming the reply `m` being built.  `resolve` models the call
`lookupStaticIP(...)` against the process's hosts state (a read-only
snapshot for the duration of one message).  In the `"hosts"` branch a
resolution error sets the server-failure response code and `continue`s;
a successful resolution is indexed with `ips[0]`, which on an empty slice
is a Go runtime panic, modelled as `Except.error`. -/
def handleQuestion (fakeDNS : String) (txt : TxtStore)
    (resolve : String → Except FsErr (List IP)) (m : Msg) (q : Question) :
    Except Panic Msg :=
  if q.qtype = TypeA then
    if fakeDNS = "hosts" then
      match resolve (trimRightDots q.name) with
      | .error _ => .ok { m with rcode := RcodeServerFailure }
      | .ok [] => .error .indexOutOfRange
      | .ok (ip :: _) => .ok { m with answer := m.answer ++ [.a q.name (some ip)] }
    else .ok { m with answer := m.answer ++ [.a q.name (parseIP fakeDNS)] }
  else if q.qtype = TypeMX then
    .ok { m with answer := m.answer ++ [.mx q.name 10 ("mail." ++ q.name)] }
  else if q.qtype = TypeTXT then
    match txt q.name with
    | none => .ok m
    | some v => .ok { m with answer := m.answer ++ [.txt q.name [v]] }
  else if q.qtype = TypeCAA then
    if q.name = "bad-caa-reserved.com." ∨ q.name = "good-caa-reserved.com." then
      .ok { m with answer := m.answer ++
        [.caa q.name "issue"
          (if q.name = "bad-caa-reserved.com." then "sad-hacker-ca.invalid"
           else "happy-hacker-ca.invalid")] }
    else .ok m
  else .ok m

/-- The question loop of `dnsHandler`, threading the reply through
`handleQuestion` and propagating a panic. -/
def processQuestions (fakeDNS : String) (txt : TxtStore)
    (resolve : String → Except FsErr (List IP)) (m : Msg) :
    List Question → Except Panic Msg
  | [] => .ok m
  | q :: rest =>
    match handleQuestion fakeDNS txt resolve m q with
    | .error p => .error p
    | .ok m' => processQuestions fakeDNS txt resolve m' rest

/-- Go `(*testSrv).dnsHandler` on a request `r`: build the reply with
`SetReply`, default the `FAKE_DNS` variable, run the question loop, then
append the fixed SOA authority record.  The value is the message passed to
`w.WriteMsg`, or the panic that aborted the handler. -/
def dnsHandler (fakeEnv : String) (txt : TxtStore)
    (resolve : String → Except FsErr (List IP)) (r : Msg) : Except Panic Msg :=
  match processQuestions (effectiveFakeDNS fakeEnv) txt resolve (setReply r) r.question with
  | .error p => .error p
  | .ok m => .ok { m with ns := m.ns ++ [boulderSOA] }

/-! ## Helper lemmas -/

/-- `Char.ofNat` of a small scalar keeps its value. -/
theorem toNat_ofNat_small (n : Nat) (h : n < 0xd800) : (Char.ofNat n).toNat = n := by
  rw [Char.ofNat, dif_pos (Or.inl (by omega))]
  rfl

/-- Lowercasing moves an ASCII uppercase letter. -/
theorem upper_toLower_ne (c : Char) (h : c.isUpper = true) : Char.toLower c ≠ c := by
  intro heq
  simp only [Char.isUpper, decide_eq_true_eq, Bool.and_eq_true, ge_iff_le,
    decide_eq_true_iff] at h
  obtain ⟨h1, h2⟩ := h
  have hn : 65 ≤ c.toNat ∧ c.toNat ≤ 90 := ⟨h1, h2⟩
  have hup : Char.toLower c = Char.ofNat (c.toNat + 32) := by
    unfold Char.toLower
    rw [if_pos ⟨hn.1, hn.2⟩]
  rw [hup] at heq
  have h3 := congrArg Char.toNat heq
  rw [toNat_ofNat_small (c.toNat + 32) (by have := hn.2; omega)] at h3
  omega

/-- Only a dot lowercases to a dot. -/
theorem toLower_eq_dot (c : Char) (h : Char.toLower c = '.') : c = '.' := by
  unfold Char.toLower at h
  by_cases hc : c.toNat ≥ 65 ∧ c.toNat ≤ 90
  · rw [if_pos hc] at h
    have h3 := congrArg Char.toNat h
    rw [toNat_ofNat_small (c.toNat + 32) (by omega)] at h3
    have hd : ('.' : Char).toNat = 46 := by decide
    omega
  · rwa [if_neg hc] at h

/-- A list equal to its own lowercasing has no character moved by
`Char.toLower`. -/
theorem map_toLower_fixed (l : List Char) (h : l = l.map Char.toLower) :
    ∀ c ∈ l, Char.toLower c = c := by
  induction l with
  | nil => intro c hc; cases hc
  | cons x xs ih =>
    rw [List.map_cons] at h
    injection h with hx hxs
    intro c hc
    rcases List.mem_cons.mp hc with hcx | hcxs
    · rw [hcx]; exact hx.symm
    · exact ih hxs c hcxs

/-- `handleQuestion` never touches the authority section. -/
theorem handleQuestion_ns_eq (fakeDNS : String) (txt : TxtStore)
    (resolve : String → Except FsErr (List IP)) (m m' : Msg) (q : Question)
    (h : handleQuestion fakeDNS txt resolve m q = .ok m') : m'.ns = m.ns := by
  unfold handleQuestion at h
  by_cases h1 : q.qtype = TypeA
  · rw [if_pos h1] at h
    by_cases h2 : fakeDNS = "hosts"
    · rw [if_pos h2] at h
      cases hr : resolve (trimRightDots q.name) with
      | error e => rw [hr] at h; cases h; rfl
      | ok ips =>
        rw [hr] at h
        cases ips with
        | nil => simp at h
        | cons ip rest => cases h; rfl
    · rw [if_neg h2] at h; cases h; rfl
  · rw [if_neg h1] at h
    by_cases h2 : q.qtype = TypeMX
    · rw [if_pos h2] at h; cases h; rfl
    · rw [if_neg h2] at h
      by_cases h3 : q.qtype = TypeTXT
      · rw [if_pos h3] at h
        cases ht : txt q.name with
        | none => rw [ht] at h; cases h; rfl
        | some v => rw [ht] at h; cases h; rfl
      · rw [if_neg h3] at h
        by_cases h4 : q.qtype = TypeCAA
        · rw [if_pos h4] at h
          by_cases h5 : q.name = "bad-caa-reserved.com." ∨ q.name = "good-caa-reserved.com."
          · rw [if_pos h5] at h; cases h; rfl
          · rw [if_neg h5] at h; cases h; rfl
        · rw [if_neg h4] at h; cases h; rfl

/-- The question loop never touches the authority section. -/
theorem processQuestions_ns_eq (fakeDNS : String) (txt : TxtStore)
    (resolve : String → Except FsErr (List IP)) :
    ∀ (qs : List Question) (m m' : Msg),
      processQuestions fakeDNS txt resolve m qs = .ok m' → m'.ns = m.ns := by
  intro qs
  induction qs with
  | nil =>
    intro m m' h
    unfold processQuestions at h
    cases h
    rfl
  | cons q rest ih =>
    intro m m' h
    unfold processQuestions at h
    cases hq : handleQuestion fakeDNS txt resolve m q with
    | error p => rw [hq] at h; cases h
    | ok m1 =>
      rw [hq] at h
      exact (ih m1 m' h).trans (handleQuestion_ns_eq fakeDNS txt resolve m m1 q hq)

/-! ## Claims -/

/-- C3: a TXT-type question is looked up by its name verbatim in the
record store; a present value yields exactly one TXT record carrying that
single value appended to the answer section, and an absent value leaves
the reply unchanged (no answer added, no error status set). -/
theorem txtQuestionVerbatimLookup (fakeDNS : String) (txt : TxtStore)
    (resolve : String → Except FsErr (List IP)) (m : Msg) (name : String) :
    (∀ v, txt name = some v →
      handleQuestion fakeDNS txt resolve m ⟨name, TypeTXT⟩ =
        .ok { m with answer := m.answer ++ [.txt name [v]] }) ∧
    (txt name = none →
      handleQuestion fakeDNS txt resolve m ⟨name, TypeTXT⟩ = .ok m) := by
  constructor
  · intro v hv
    simp [handleQuestion, TypeTXT, TypeA, TypeMX, hv]
  · intro hv
    simp [handleQuestion, TypeTXT, TypeA, TypeMX, hv]

/-- Witness for `txtQuestionVerbatimLookup` at a concrete store and
question. -/
theorem txtQuestionVerbatimLookupWitness :
    handleQuestion "127.0.0.1" (publish emptyStore "a.example.com." "token")
      (fun _ => .ok []) ⟨[], [], [], 0⟩ ⟨"a.example.com.", TypeTXT⟩ =
      .ok ⟨[], [.txt "a.example.com." ["token"]], [], 0⟩ ∧
    handleQuestion "127.0.0.1" emptyStore (fun _ => .ok [])
      ⟨[], [], [], 0⟩ ⟨"a.example.com.", TypeTXT⟩ = .ok ⟨[], [], [], 0⟩ := by
  constructor
  · exact (txtQuestionVerbatimLookup "127.0.0.1"
      (publish emptyStore "a.example.com." "token") (fun _ => .ok [])
      ⟨[], [], [], 0⟩ "a.example.com.").1 "token" (by decide)
  · exact (txtQuestionVerbatimLookup "127.0.0.1" emptyStore (fun _ => .ok [])
      ⟨[], [], [], 0⟩ "a.example.com.").2 rfl

/-- C5: a CAA-type question for the policy-violating fixture yields
exactly one CAA record with tag `issue` and the disallowed-issuer value,
the compliant fixture yields exactly one CAA record with tag `issue` and
the allowed-issuer value, and every other name yields no CAA answer. -/
theorem caaFixedFixtures (fakeDNS : String) (txt : TxtStore)
    (resolve : String → Except FsErr (List IP)) (m : Msg) (name : String) :
    (name = "bad-caa-reserved.com." →
      handleQuestion fakeDNS txt resolve m ⟨name, TypeCAA⟩ =
        .ok { m with answer := m.answer ++ [.caa name "issue" "sad-hacker-ca.invalid"] }) ∧
    (name = "good-caa-reserved.com." →
      handleQuestion fakeDNS txt resolve m ⟨name, TypeCAA⟩ =
        .ok { m with answer := m.answer ++ [.caa name "issue" "happy-hacker-ca.invalid"] }) ∧
    (name ≠ "bad-caa-reserved.com." → name ≠ "good-caa-reserved.com." →
      handleQuestion fakeDNS txt resolve m ⟨name, TypeCAA⟩ = .ok m) := by
  refine ⟨fun hb => ?_, fun hg => ?_, fun hnb hng => ?_⟩
  · subst hb
    simp [handleQuestion, TypeCAA, TypeA, TypeMX, TypeTXT]
  · subst hg
    simp [handleQuestion, TypeCAA, TypeA, TypeMX, TypeTXT]
  · simp [handleQuestion, TypeCAA, TypeA, TypeMX, TypeTXT, hnb, hng]

/-- Witness for `caaFixedFixtures` at the two fixture names and a third
name. -/
theorem caaFixedFixturesWitness :
    handleQuestion "127.0.0.1" emptyStore (fun _ => .ok []) ⟨[], [], [], 0⟩
      ⟨"bad-caa-reserved.com.", TypeCAA⟩ =
      .ok ⟨[], [.caa "bad-caa-reserved.com." "issue" "sad-hacker-ca.invalid"], [], 0⟩ ∧
    handleQuestion "127.0.0.1" emptyStore (fun _ => .ok []) ⟨[], [], [], 0⟩
      ⟨"good-caa-reserved.com.", TypeCAA⟩ =
      .ok ⟨[], [.caa "good-caa-reserved.com." "issue" "happy-hacker-ca.invalid"], [], 0⟩ ∧
    handleQuestion "127.0.0.1" emptyStore (fun _ => .ok []) ⟨[], [], [], 0⟩
      ⟨"example.org.", TypeCAA⟩ = .ok ⟨[], [], [], 0⟩ := by
  refine ⟨?_, ?_, ?_⟩
  · exact (caaFixedFixtures "127.0.0.1" emptyStore (fun _ => .ok [])
      ⟨[], [], [], 0⟩ "bad-caa-reserved.com.").1 rfl
  · exact (caaFixedFixtures "127.0.0.1" emptyStore (fun _ => .ok [])
      ⟨[], [], [], 0⟩ "good-caa-reserved.com.").2.1 rfl
  · exact (caaFixedFixtures "127.0.0.1" emptyStore (fun _ => .ok [])
      ⟨[], [], [], 0⟩ "example.org.").2.2 (by decide) (by decide)

/-- C4: publishing stores under the lowercased host; publishing `v1` then
`v2` for the same host is exactly a single publish of `v2` (no residual
trace of `v1`), the stored value for the lowercased host is `v2`, and no
other record store entry changes. -/
theorem publishLowercasesAndOverwrites (st : TxtStore) (h v1 v2 : String)
    (_hne : h ≠ "") :
    publish (publish st h v1) h v2 = publish st h v2 ∧
    (publish st h v2) (toLowerStr h) = some v2 ∧
    ∀ k, k ≠ toLowerStr h → (publish st h v2) k = st k := by
  refine ⟨funext fun k => ?_, ?_, fun k hk => ?_⟩
  · by_cases hkey : k = toLowerStr h <;> simp [publish, hkey]
  · simp [publish]
  · simp [publish, hk]

/-- Witness for `publishLowercasesAndOverwrites` at a concrete host with
two successive values. -/
theorem publishLowercasesAndOverwritesWitness :
    ("Foo.Example." ≠ "") ∧
    (publish emptyStore "Foo.Example." "v2") (toLowerStr "Foo.Example.") = some "v2" := by
  refine ⟨by decide, ?_⟩
  exact (publishLowercasesAndOverwrites emptyStore "Foo.Example." "v1" "v2"
    (by decide)).2.1

/-- C9: whenever the handler completes a message (all questions
processed, whatever their types or outcomes), the reply's authority
section is exactly one SOA record with zone name `boulder.invalid.`,
primary nameserver `ns.boulder.invalid.`, responsible mailbox
`master.boulder.invalid.`, and serial, refresh, retry interval, expire
and minimum all `1`, the smallest valid positive value. -/
theorem soaAuthorityAlwaysAppended (fakeEnv : String) (txt : TxtStore)
    (resolve : String → Except FsErr (List IP)) (r m : Msg)
    (h : dnsHandler fakeEnv txt resolve r = .ok m) :
    m.ns = [RR.soa "boulder.invalid." "ns.boulder.invalid." "master.boulder.invalid."
      1 1 1 1 1] := by
  unfold dnsHandler at h
  cases hp : processQuestions (effectiveFakeDNS fakeEnv) txt resolve (setReply r)
      r.question with
  | error p => rw [hp] at h; cases h
  | ok m0 =>
    rw [hp] at h
    cases h
    have h0 := processQuestions_ns_eq (effectiveFakeDNS fakeEnv) txt resolve
      r.question (setReply r) m0 hp
    simp [boulderSOA, h0, setReply]

/-- Witness for `soaAuthorityAlwaysAppended` on a concrete completed
message. -/
theorem soaAuthorityAlwaysAppendedWitness :
    Msg.ns ⟨[⟨"example.com.", TypeA⟩],
        [.a "example.com." (some (.v4 10 0 0 1))], [boulderSOA], 0⟩ =
      [RR.soa "boulder.invalid." "ns.boulder.invalid." "master.boulder.invalid."
        1 1 1 1 1] :=
  soaAuthorityAlwaysAppended "10.0.0.1" emptyStore (fun _ => .ok [])
    ⟨[⟨"example.com.", TypeA⟩], [], [], 0⟩
    ⟨[⟨"example.com.", TypeA⟩], [.a "example.com." (some (.v4 10 0 0 1))],
      [boulderSOA], 0⟩
    (by rfl)

/-- C6: the control API's status codes: `200 OK` for a POST to `/set-txt`
whose body reads and unmarshals to a request with a non-empty host (the
value is then stored); `400 Bad Request` when the body read fails, the
JSON does not unmarshal, or the host is empty; `405 Method Not Allowed`
for a non-POST to `/set-txt`; `404 Not Found` for any other path. -/
theorem controlApiStatusCodes (um : String → Except String SetRequest)
    (st : TxtStore) (method path : String) (body : Except String String) :
    (path = "/set-txt" → method = "POST" → ∀ msg sr, body = .ok msg →
      um msg = .ok sr → sr.host ≠ "" →
      setTXT um st method path body = (publish st sr.host sr.value, 200)) ∧
    (path = "/set-txt" → method = "POST" → ∀ e, body = .error e →
      (setTXT um st method path body).2 = 400) ∧
    (path = "/set-txt" → method = "POST" → ∀ msg e, body = .ok msg →
      um msg = .error e → (setTXT um st method path body).2 = 400) ∧
    (path = "/set-txt" → method = "POST" → ∀ msg sr, body = .ok msg →
      um msg = .ok sr → sr.host = "" → (setTXT um st method path body).2 = 400) ∧
    (path = "/set-txt" → method ≠ "POST" →
      (setTXT um st method path body).2 = 405) ∧
    (path ≠ "/set-txt" → (setTXT um st method path body).2 = 404) := by
  refine ⟨?_, ?_, ?_, ?_, ?_, ?_⟩
  · intro hp hm msg sr hb hu hh
    subst hp; subst hm; subst hb
    simp [setTXT, hu, hh]
  · intro hp hm e hb
    subst hp; subst hm; subst hb
    simp [setTXT]
  · intro hp hm msg e hb hu
    subst hp; subst hm; subst hb
    simp [setTXT, hu]
  · intro hp hm msg sr hb hu hh
    subst hp; subst hm; subst hb
    simp [setTXT, hu, hh]
  · intro hp hm
    subst hp
    simp [setTXT, hm]
  · intro hp
    simp [setTXT, hp]

/-- A stand-in for `json.Unmarshal` used by the control API witness: one
body that decodes to a populated request, one that decodes to a request
with an empty host (as `{}` does), anything else failing to decode. -/
def jsonStub : String → Except String SetRequest := fun s =>
  if s = "good-body" then .ok ⟨"a.example.com", "tok"⟩
  else if s = "empty-body" then .ok ⟨"", ""⟩
  else .error "invalid character"

/-- Witness for `controlApiStatusCodes` on concrete requests. -/
theorem controlApiStatusCodesWitness :
    setTXT jsonStub emptyStore "POST" "/set-txt" (.ok "good-body") =
      (publish emptyStore "a.example.com" "tok", 200) ∧
    (setTXT jsonStub emptyStore "POST" "/set-txt" (.error "read failed")).2 = 400 ∧
    (setTXT jsonStub emptyStore "POST" "/set-txt" (.ok "nonsense")).2 = 400 ∧
    (setTXT jsonStub emptyStore "POST" "/set-txt" (.ok "empty-body")).2 = 400 ∧
    (setTXT jsonStub emptyStore "GET" "/set-txt" (.ok "good-body")).2 = 405 ∧
    (setTXT jsonStub emptyStore "POST" "/unknown" (.ok "good-body")).2 = 404 := by
  refine ⟨?_, ?_, ?_, ?_, ?_, ?_⟩
  · exact (controlApiStatusCodes jsonStub emptyStore "POST" "/set-txt"
      (.ok "good-body")).1 rfl rfl "good-body" ⟨"a.example.com", "tok"⟩ rfl
      rfl (by decide)
  · exact (controlApiStatusCodes jsonStub emptyStore "POST" "/set-txt"
      (.error "read failed")).2.1 rfl rfl "read failed" rfl
  · exact (controlApiStatusCodes jsonStub emptyStore "POST" "/set-txt"
      (.ok "nonsense")).2.2.1 rfl rfl "nonsense" "invalid character" rfl rfl
  · exact (controlApiStatusCodes jsonStub emptyStore "POST" "/set-txt"
      (.ok "empty-body")).2.2.2.1 rfl rfl "empty-body" ⟨"", ""⟩ rfl rfl rfl
  · exact (controlApiStatusCodes jsonStub emptyStore "GET" "/set-txt"
      (.ok "good-body")).2.2.2.2.1 rfl (by decide)
  · exact (controlApiStatusCodes jsonStub emptyStore "POST" "/unknown"
      (.ok "good-body")).2.2.2.2.2 (by decide)

/-- C7: the hosts-cache invariant of `allHosts`: when the cache holds a
table and its recorded timestamp is not older than the file's current
modification time, the cached table is returned and the cache is
unchanged; otherwise the whole file is reparsed and both the table and
the timestamp are replaced by the new parse and the file's modification
time. -/
theorem hostsCacheInvariant (st : HostsCache) (statRes : Except FsErr Nat)
    (readRes : Except FsErr (List Char)) (mtime : Nat) (tbl : HostsMap)
    (hstat : statRes = .ok mtime) (hcache : st.hosts = some tbl) :
    (¬ st.hostsTime < mtime → allHosts st statRes readRes = .ok (st, tbl)) ∧
    (∀ content, st.hostsTime < mtime → readRes = .ok content →
      allHosts st statRes readRes =
        .ok ({ hosts := some (readHosts content), hostsTime := mtime },
          readHosts content)) := by
  subst hstat
  constructor
  · intro hlt
    simp [allHosts, hcache, hlt]
  · intro content hlt hread
    subst hread
    simp [allHosts, hcache, hlt]

/-- Witness for `hostsCacheInvariant`: an up-to-date cache is reused even
when the file has become unreadable, and a stale cache is replaced by the
reparse. -/
theorem hostsCacheInvariantWitness :
    allHosts ⟨some hostsEmpty, 5⟩ (.ok 3) (.error .other) =
      .ok (⟨some hostsEmpty, 5⟩, hostsEmpty) ∧
    allHosts ⟨some hostsEmpty, 5⟩ (.ok 9) (.ok "1.2.3.4 h\n".data) =
      .ok (⟨some (readHosts "1.2.3.4 h\n".data), 9⟩, readHosts "1.2.3.4 h\n".data) := by
  constructor
  · exact (hostsCacheInvariant ⟨some hostsEmpty, 5⟩ (.ok 3) (.error .other) 3
      hostsEmpty rfl rfl).1 (by decide)
  · exact (hostsCacheInvariant ⟨some hostsEmpty, 5⟩ (.ok 9) (.ok "1.2.3.4 h\n".data)
      9 hostsEmpty rfl rfl).2 "1.2.3.4 h\n".data (by decide) rfl

/-- A hosts resolver whose table maps every name to `5.6.7.8`, used to
exhibit that the handler does not consult the resolver when `FAKE_DNS` is
unset. -/
def fixedResolver : String → Except FsErr (List IP) := fun _ => .ok [.v4 5 6 7 8]

/-- Counterexample to C2 as stated: with the override variable unset (the
empty result of `os.Getenv`), an A-question is answered with the built-in
default `127.0.0.1` and a success status — not resolved through the Hosts
Resolver, which here would have produced `5.6.7.8`. -/
theorem fakeDnsUnsetDefaultsToLoopback :
    dnsHandler "" emptyStore fixedResolver ⟨[⟨"example.com.", TypeA⟩], [], [], 0⟩ =
      .ok ⟨[⟨"example.com.", TypeA⟩], [.a "example.com." (some (.v4 127 0 0 1))],
        [boulderSOA], 0⟩ ∧
    (RR.a "example.com." (some (.v4 127 0 0 1)) ≠
      .a "example.com." (some (.v4 5 6 7 8))) := by
  constructor
  · rfl
  · decide

/-- C2 as amended: a literal-address override answers every A-question
with exactly that address; the sentinel `hosts` routes every A-question
through the Hosts Resolver (error ⇒ server-failure status, addresses ⇒
first address); an unset variable behaves as the literal default
`127.0.0.1` (the launcher script, not the responder, substitutes the
sentinel for an unset variable). -/
theorem fakeDnsOverrideSemantics (fakeEnv : String) (txt : TxtStore)
    (resolve : String → Except FsErr (List IP)) (m : Msg) (name : String) :
    (∀ ip, parseIP fakeEnv = some ip →
      handleQuestion (effectiveFakeDNS fakeEnv) txt resolve m ⟨name, TypeA⟩ =
        .ok { m with answer := m.answer ++ [.a name (some ip)] }) ∧
    (fakeEnv = "hosts" →
      (∀ e, resolve (trimRightDots name) = .error e →
        handleQuestion (effectiveFakeDNS fakeEnv) txt resolve m ⟨name, TypeA⟩ =
          .ok { m with rcode := RcodeServerFailure }) ∧
      (∀ ip rest, resolve (trimRightDots name) = .ok (ip :: rest) →
        handleQuestion (effectiveFakeDNS fakeEnv) txt resolve m ⟨name, TypeA⟩ =
          .ok { m with answer := m.answer ++ [.a name (some ip)] })) ∧
    (fakeEnv = "" →
      handleQuestion (effectiveFakeDNS fakeEnv) txt resolve m ⟨name, TypeA⟩ =
        .ok { m with answer := m.answer ++ [.a name (some (.v4 127 0 0 1))] }) := by
  refine ⟨?_, ?_, ?_⟩
  · intro ip hip
    have hu : parseIP "" = none := by decide
    have hh : parseIP "hosts" = none := by decide
    have hne : fakeEnv ≠ "" := by
      intro h
      rw [h, hu] at hip
      simp at hip
    have hnh : fakeEnv ≠ "hosts" := by
      intro h
      rw [h, hh] at hip
      simp at hip
    simp [handleQuestion, effectiveFakeDNS, TypeA, hne, hnh, hip]
  · intro h
    subst h
    constructor
    · intro e he
      simp [handleQuestion, effectiveFakeDNS, TypeA, he]
    · intro ip rest hr
      simp [handleQuestion, effectiveFakeDNS, TypeA, hr]
  · intro h
    subst h
    have h1 : parseIP "127.0.0.1" = some (.v4 127 0 0 1) := by decide
    simp [handleQuestion, effectiveFakeDNS, TypeA, h1]

/-- Witness for `fakeDnsOverrideSemantics` at concrete override values,
resolvers and names. -/
theorem fakeDnsOverrideSemanticsWitness :
    handleQuestion (effectiveFakeDNS "10.0.0.1") emptyStore fixedResolver
      ⟨[], [], [], 0⟩ ⟨"x.example.", TypeA⟩ =
      .ok ⟨[], [.a "x.example." (some (.v4 10 0 0 1))], [], 0⟩ ∧
    handleQuestion (effectiveFakeDNS "hosts") emptyStore (fun _ => .error .other)
      ⟨[], [], [], 0⟩ ⟨"x.example.", TypeA⟩ =
      .ok ⟨[], [], [], RcodeServerFailure⟩ ∧
    handleQuestion (effectiveFakeDNS "hosts") emptyStore fixedResolver
      ⟨[], [], [], 0⟩ ⟨"x.example.", TypeA⟩ =
      .ok ⟨[], [.a "x.example." (some (.v4 5 6 7 8))], [], 0⟩ ∧
    handleQuestion (effectiveFakeDNS "") emptyStore fixedResolver
      ⟨[], [], [], 0⟩ ⟨"x.example.", TypeA⟩ =
      .ok ⟨[], [.a "x.example." (some (.v4 127 0 0 1))], [], 0⟩ := by
  refine ⟨?_, ?_, ?_, ?_⟩
  · exact (fakeDnsOverrideSemantics "10.0.0.1" emptyStore fixedResolver
      ⟨[], [], [], 0⟩ "x.example.").1 (.v4 10 0 0 1) (by decide)
  · exact ((fakeDnsOverrideSemantics "hosts" emptyStore (fun _ => .error .other)
      ⟨[], [], [], 0⟩ "x.example.").2.1 rfl).1 .other rfl
  · exact ((fakeDnsOverrideSemantics "hosts" emptyStore fixedResolver
      ⟨[], [], [], 0⟩ "x.example.").2.1 rfl).2 (.v4 5 6 7 8) [] rfl
  · exact (fakeDnsOverrideSemantics "" emptyStore fixedResolver
      ⟨[], [], [], 0⟩ "x.example.").2.2 rfl

/-- A concrete hosts file holding only `localhost`, its parsed cache, and
the resolver `dnsHandler` reaches through `lookupStaticIP` against that
state. -/
def sampleHostsContent : List Char := "127.0.0.1 localhost\n".data

/-- The process hosts cache after `sampleHostsContent` was parsed at
modification time `10`. -/
def sampleHostsCache : HostsCache := ⟨some (readHosts sampleHostsContent), 10⟩

/-- `lookupStaticIP` against `sampleHostsCache` with an unchanged file. -/
def sampleResolve : String → Except FsErr (List IP) := fun name =>
  (lookupStaticIP name.data sampleHostsCache (.ok 10) (.ok sampleHostsContent)).map
    Prod.snd

/-- C1 fails on the code: a name in neither the override nor the hosts
file resolves to an empty address list with no error, and the handler then
evaluates `ips[0]` on that empty slice — a runtime panic that aborts the
whole message (no server-failure status is set, the second, resolvable
question is never answered, and no reply is written), where the claim
requires a per-question server-failure status and continued processing. -/
theorem unresolvableAQuestionPanics :
    sampleResolve "unknown.invalid" = .ok [] ∧
    dnsHandler "hosts" emptyStore sampleResolve
      ⟨[⟨"unknown.invalid.", TypeA⟩, ⟨"localhost.", TypeA⟩], [], [], 0⟩ =
      .error .indexOutOfRange ∧
    dnsHandler "hosts" emptyStore sampleResolve
      ⟨[⟨"localhost.", TypeA⟩], [], [], 0⟩ =
      .ok ⟨[⟨"localhost.", TypeA⟩], [.a "localhost." (some (.v4 127 0 0 1))],
        [boulderSOA], 0⟩ := by
  refine ⟨?_, ?_, ?_⟩ <;> rfl

/-- An empty line contributes nothing to the hosts table. -/
theorem hostsLine_nil (ret : HostsMap) : hostsLine ret [] = ret := rfl

/-- One step of the specification's line split. -/
theorem specLinesAux_cons (c : Char) (cs acc : List Char) :
    specLinesAux (c :: cs) acc =
      if c = '\n' then acc.reverse :: specLinesAux cs []
      else specLinesAux cs (c :: acc) := rfl

/-- One step of the code's line split. -/
theorem goLinesAux_cons (c : Char) (cs acc : List Char) :
    goLinesAux (c :: cs) acc =
      if c = '\n' then acc.reverse :: goLinesAux cs []
      else goLinesAux cs (c :: acc) := rfl

/-- For newline-terminated content, the specification's line split is the
code's line split followed by one empty segment. -/
theorem specLinesAux_ends_nl :
    ∀ (cs acc : List Char), cs.getLast? = some '\n' →
      specLinesAux cs acc = goLinesAux cs acc ++ [[]] := by
  intro cs
  induction cs with
  | nil => intro acc h; cases h
  | cons c cs ih =>
    intro acc h
    cases cs with
    | nil =>
      have hc : c = '\n' := by simpa using h
      subst hc
      rfl
    | cons d ds =>
      have h' : (d :: ds).getLast? = some '\n' := by
        rwa [List.getLast?_cons_cons] at h
      rw [specLinesAux_cons, goLinesAux_cons]
      by_cases hc : c = '\n'
      · rw [if_pos hc, if_pos hc, ih [] h']
        rfl
      · rw [if_neg hc, if_neg hc, ih (c :: acc) h']

/-- The hosts-file content exhibiting the divergence: a valid final line
not terminated by a newline. -/
def unterminatedHosts : List Char := "1.2.3.4 myhost".data

/-- Counterexample to C8 as stated: for content whose final, valid line is
not terminated by a newline, `readHosts` discards that line entirely (the
`ReadString` loop treats the end-of-file result as termination), so the
alias `myhost` of the valid line `1.2.3.4 myhost` is not mapped to the
line's address — while the claimed line-oriented parse maps it. -/
theorem readHostsDropsUnterminatedFinalLine :
    readHosts unterminatedHosts "myhost".data = [] ∧
    readHostsSpec unterminatedHosts "myhost".data = [.v4 1 2 3 4] := by
  constructor <;> rfl

/-- C8 as amended: parsing is line-oriented over the newline-terminated
lines of the content — a final line not terminated by a newline is
discarded; in particular, on newline-terminated content the parse is
exactly the claimed line-oriented parse.  For every processed line: blank
lines and lines beginning with `#` are skipped; the line is split on runs
of whitespace; a line whose first token does not parse as an IP address is
skipped without failing the parse; and every subsequent token of a valid
line is a hostname alias mapped to that line's address, appended in file
order after any addresses already accumulated for that hostname. -/
theorem readHostsLineOriented :
    (∀ content : List Char, content.getLast? = some '\n' →
      readHosts content = readHostsSpec content) ∧
    (∀ (ret : HostsMap) (l : List Char), trimSpace l = [] →
      hostsLine ret l = ret) ∧
    (∀ (ret : HostsMap) (l : List Char), (trimSpace l).head? = some '#' →
      hostsLine ret l = ret) ∧
    (∀ (ret : HostsMap) (l : List Char) (f0 : List Char) (rest : List (List Char)),
      splitRuns isRESpace (trimSpace l) = f0 :: rest →
      trimSpace l ≠ [] → (trimSpace l).head? ≠ some '#' →
      parseIPChars f0 = none → hostsLine ret l = ret) ∧
    (∀ (ret : HostsMap) (l : List Char) (f0 : List Char) (rest : List (List Char))
      (addr : IP),
      splitRuns isRESpace (trimSpace l) = f0 :: rest →
      trimSpace l ≠ [] → (trimSpace l).head? ≠ some '#' →
      parseIPChars f0 = some addr →
      hostsLine ret l = rest.foldl (fun mp name => hostsAdd mp name addr) ret) ∧
    (∀ (mp : HostsMap) (name : List Char) (addr : IP),
      (hostsAdd mp name addr) name = mp name ++ [addr] ∧
      ∀ k, k ≠ name → (hostsAdd mp name addr) k = mp k) := by
  refine ⟨?_, ?_, ?_, ?_, ?_, ?_⟩
  · intro content h
    unfold readHosts readHostsSpec goLines
    rw [specLinesAux_ends_nl content [] h, List.foldl_append]
    simp [hostsLine_nil]
  · intro ret l h
    simp [hostsLine, h]
  · intro ret l h
    by_cases ht : trimSpace l = []
    · simp [hostsLine, ht]
    · simp [hostsLine, ht, h]
  · intro ret l f0 rest hsplit hne hhash hip
    simp [hostsLine, hne, hhash, hsplit, hip]
  · intro ret l f0 rest addr hsplit hne hhash hip
    simp [hostsLine, hne, hhash, hsplit, hip]
  · intro mp name addr
    refine ⟨by simp [hostsAdd], fun k hk => by simp [hostsAdd, hk]⟩

/-- Witness for `readHostsLineOriented` at concrete content and lines. -/
theorem readHostsLineOrientedWitness :
    readHosts "1.2.3.4 h1 h2\nbad-ip h3\n# note\n\n5.6.7.8 h1\n".data =
      readHostsSpec "1.2.3.4 h1 h2\nbad-ip h3\n# note\n\n5.6.7.8 h1\n".data ∧
    hostsLine hostsEmpty "   ".data = hostsEmpty ∧
    hostsLine hostsEmpty "# a comment".data = hostsEmpty ∧
    hostsLine hostsEmpty "bad-ip h3".data = hostsEmpty := by
  refine ⟨?_, ?_, ?_, ?_⟩
  · exact readHostsLineOriented.1 "1.2.3.4 h1 h2\nbad-ip h3\n# note\n\n5.6.7.8 h1\n".data
      (by decide)
  · exact readHostsLineOriented.2.1 hostsEmpty "   ".data (by decide)
  · exact readHostsLineOriented.2.2.1 hostsEmpty "# a comment".data (by decide)
  · exact readHostsLineOriented.2.2.2.1 hostsEmpty "bad-ip h3".data
      "bad-ip".data ["h3".data] (by decide) (by decide) (by decide) (by decide)

/-- C10: publish-then-query round trip at the public interface: after
publishing value `v` for host `h` into an empty store, a TXT lookup for
question name `n` yields `v` exactly when `n` equals `h` lowercased,
character for character.  In particular a fully-qualified query name
(ending in a dot) never hits a host published without a trailing dot, and
a host containing an uppercase letter is never hit by the identically
written query name. -/
theorem publishQueryRoundTrip (h v : String) :
    (∀ n, (publish emptyStore h v) n = some v ↔ n = toLowerStr h) ∧
    (h.data.getLast? ≠ some '.' →
      ∀ n, n.data.getLast? = some '.' → (publish emptyStore h v) n = none) ∧
    ((∃ c ∈ h.data, c.isUpper = true) → (publish emptyStore h v) h = none) := by
  refine ⟨?_, ?_, ?_⟩
  · intro n
    by_cases hn : n = toLowerStr h
    · simp [publish, hn]
    · simp [publish, emptyStore, hn]
  · intro hlast n hdot
    have hne : n ≠ toLowerStr h := by
      intro he
      have hd : n.data = h.data.map Char.toLower := congrArg String.data he
      rw [hd, List.getLast?_map] at hdot
      cases hl : h.data.getLast? with
      | none => rw [hl] at hdot; cases hdot
      | some c =>
        rw [hl] at hdot
        simp only [Option.map_some'] at hdot
        have hcd := toLower_eq_dot c (Option.some.injEq _ _ ▸ hdot)
        exact hlast (by rw [hl, hcd])
    simp [publish, emptyStore, hne]
  · rintro ⟨c, hc, hup⟩
    have hne : h ≠ toLowerStr h := by
      intro he
      have hd : h.data = h.data.map Char.toLower := congrArg String.data he
      exact upper_toLower_ne c hup (map_toLower_fixed h.data hd c hc)
    simp [publish, emptyStore, hne]

/-- Witness for `publishQueryRoundTrip`: a value published for
`Example.Com.` answers the lowercased query name, not the identically
written one, and a value published without a trailing dot answers no
fully-qualified query name. -/
theorem publishQueryRoundTripWitness :
    (publish emptyStore "Example.Com." "tok") "example.com." = some "tok" ∧
    (publish emptyStore "Example.Com." "tok") "Example.Com." = none ∧
    (publish emptyStore "example.com" "tok") "example.com." = none := by
  refine ⟨?_, ?_, ?_⟩
  · exact ((publishQueryRoundTrip "Example.Com." "tok").1 "example.com.").mpr
      (by decide)
  · exact (publishQueryRoundTrip "Example.Com." "tok").2.2 ⟨'E', by decide, by decide⟩
  · exact (publishQueryRoundTrip "example.com" "tok").2.1 (by decide)
      "example.com." (by decide)

end BoulderDns
